import Mathlib

/-!
Verification of the streaming commit-message assembler from `git-aicommit`
(`src/main.go`).  The Go program is shallowly embedded: the HTTP transport,
the `bufio.Scanner` line source, and `encoding/json` decoding of stream
chunks are external library code and are modelled as explicit parameters
(a `TransportResult` value and a `decode` function), while every branch of
the repository's own code (`streamCommitMessage`, `runCommit`,
`buildPromptMessages`, the request construction) is translated directly.
-/

namespace GitAicommit

/-- `DeltaMessage` (src/main.go:56-58): the optional incremental content of
one streamed choice; `Content *string` with `omitempty` is an `Option`. -/
structure DeltaMessage where
  content : Option String
deriving Repr, DecidableEq

/-- `StreamChoice` (src/main.go:52-54). -/
structure StreamChoice where
  delta : DeltaMessage
deriving Repr, DecidableEq

/-- `StreamResponseChunk` (src/main.go:48-50): one decoded stream event. -/
structure StreamResponseChunk where
  choices : List StreamChoice
deriving Repr, DecidableEq

/-- `ChatMessage` (src/main.go:34-37). -/
structure ChatMessage where
  role : String
  content : String
deriving Repr, DecidableEq

/-- `ChatRequest` (src/main.go:40-45).  The `Temperature *float32` pointer
field is an `Option`; Go `float32` values are passed through unchanged, so
they are modelled by `Float`. -/
structure ChatRequest where
  model : String
  messages : List ChatMessage
  stream : Bool
  temperature : Option Float
deriving Repr

/-- One field of the JSON object produced by `json.Marshal` on a
`ChatRequest`; the serializer is modelled at field granularity. -/
inductive JsonField where
  | str (key : String) (value : String)
  | msgs (key : String) (value : List ChatMessage)
  | bool (key : String) (value : Bool)
  | num (key : String) (value : Float)
deriving Repr

/-- The key of a serialized JSON field. -/
def JsonField.key : JsonField → String
  | .str k _ => k
  | .msgs k _ => k
  | .bool k _ => k
  | .num k _ => k

/-- `json.Marshal` of a `ChatRequest` (src/main.go:297), at field
granularity.  The struct tags (src/main.go:40-45) emit `model`, `messages`
and `stream` unconditionally; `temperature` carries `omitempty` on a
pointer, so a `nil` pointer emits no field at all and a non-nil pointer
emits exactly the pointed-to value. -/
def serializeChatRequest (r : ChatRequest) : List JsonField :=
  [JsonField.str "model" r.model,
   JsonField.msgs "messages" r.messages,
   JsonField.bool "stream" r.stream] ++
  (match r.temperature with
   | none => []
   | some t => [JsonField.num "temperature" t])

/-- The request body built at src/main.go:290-295. -/
def buildChatRequest (messages : List ChatMessage) (temperature : Option Float) :
    ChatRequest :=
  { model := "deepseek-chat"
    messages := messages
    stream := true
    temperature := temperature }

/-- The outbound HTTP request assembled at src/main.go:302-308. -/
structure HttpRequest where
  method : String
  url : String
  headers : List (String × String)
  body : List JsonField

/-- src/main.go:302-308: POST to the fixed endpoint with a JSON
content-type header and a bearer-token authorization header. -/
def buildRequest (apiKey : String) (body : List JsonField) : HttpRequest :=
  { method := "POST"
    url := "https://api.deepseek.com/chat/completions"
    headers := [("Content-Type", "application/json"),
                ("Authorization", "Bearer " ++ apiKey)]
    body := body }

/-- The response the external transport hands back for the one request the
assembler sends: the status code, the raw body (read whole by `io.ReadAll`
on the failure path, src/main.go:318), and the body as the sequence of
lines the `bufio.Scanner` yields (src/main.go:325-327) together with the
read error, if any, that `scanner.Err()` reports afterwards
(src/main.go:365). -/
structure HttpResponse where
  statusCode : Nat
  raw : String
  lines : List String
  scanErr : Option String

/-- Outcome of `client.Do(req)` (src/main.go:311): either a transport
failure or a response. -/
inductive TransportResult where
  | failure (e : String)
  | success (resp : HttpResponse)

/-- The accumulator of src/main.go:322-323 plus the console: `fullMessage`
and `currentLine` are the two `strings.Builder`s, and `printed` records
each complete line written to standard output. -/
structure AccState where
  fullMessage : String
  currentLine : String
  printed : List String
deriving Repr, DecidableEq

/-- `strings.HasPrefix` from the Go standard library, on the rune view of
the string. -/
def goHasPrefix (s pre : String) : Bool :=
  pre.toList.isPrefixOf s.toList

/-- The Go slice expression `s[n:]`; for the one use site, `line[5:]`
after `strings.HasPrefix(line, "data:")` succeeded, the dropped prefix is
ASCII, so byte indexing and rune indexing agree. -/
def goDrop (s : String) (n : Nat) : String :=
  String.mk (s.toList.drop n)

/-- `unicode.IsSpace` on the Latin-1 range, which is Go's fast path and
covers every character these claims touch (space property code points
above U+00A0 behave identically and are omitted from the model). -/
def goIsSpace (c : Char) : Bool :=
  c = ' ' || c = '\t' || c = '\n' || c = '\x0b' || c = '\x0c' || c = '\r' ||
  c = '\u0085' || c = '\u00A0'

/-- `strings.TrimSpace` from the Go standard library: remove leading and
trailing whitespace. -/
def goTrimSpace (s : String) : String :=
  String.mk (((s.toList.dropWhile goIsSpace).reverse.dropWhile goIsSpace).reverse)

/-- `strings.TrimSuffix` from the Go standard library. -/
def goTrimSuffix (s suf : String) : String :=
  if suf.toList.isSuffixOf s.toList then
    String.mk (s.toList.take (s.toList.length - suf.toList.length))
  else s

/-- The body of the per-rune loop at src/main.go:343-351: append the rune
to `currentLine`; on a newline, print the line with the trailing newline
stripped behind the `"| "` marker, append the line verbatim to
`fullMessage`, and reset `currentLine`. -/
def processChar (st : AccState) (ch : Char) : AccState :=
  let cur := st.currentLine.push ch
  if ch = '\n' then
    { fullMessage := st.fullMessage ++ cur
      currentLine := ""
      printed := st.printed ++ ["| " ++ goTrimSuffix cur "\n"] }
  else
    { st with currentLine := cur }

/-- The `for _, ch := range content` loop at src/main.go:343. -/
def processContent (st : AccState) (content : String) : AccState :=
  content.toList.foldl processChar st

/-- The per-choice branch at src/main.go:341-353: a choice whose
`Delta.Content` pointer is nil is skipped; otherwise its runes are fed to
the accumulator. -/
def processChoice (st : AccState) (choice : StreamChoice) : AccState :=
  match choice.delta.content with
  | none => st
  | some c => processContent st c

/-- The `for _, choice := range chunk.Choices` loop at src/main.go:340. -/
def processChunk (st : AccState) (chunk : StreamResponseChunk) : AccState :=
  chunk.choices.foldl processChoice st

/-- One iteration of the scanner loop, src/main.go:327-356: only lines
starting with `"data:"` other than the `"data: [DONE]"` sentinel are
candidates; the marker is stripped and the rest trimmed; an empty or
undecodable payload is skipped silently; a decoded chunk's choices are fed
to the accumulator.  `decode` stands for `json.Unmarshal` into
`StreamResponseChunk` (src/main.go:336), external library code. -/
def processLine (decode : String → Option StreamResponseChunk)
    (st : AccState) (line : String) : AccState :=
  if goHasPrefix line "data:" ∧ line ≠ "data: [DONE]" then
    if goTrimSpace (goDrop line 5) = "" then st
    else
      match decode (goTrimSpace (goDrop line 5)) with
      | none => st
      | some chunk => processChunk st chunk
  else st

/-- The residual flush at src/main.go:359-363: if `currentLine` is
non-empty after the scanner is exhausted, print it once trimmed of
surrounding whitespace, and append it untrimmed to `fullMessage`. -/
def finalizeState (st : AccState) : AccState :=
  if st.currentLine.length > 0 then
    { st with
      fullMessage := st.fullMessage ++ st.currentLine
      printed := st.printed ++ ["| " ++ goTrimSpace st.currentLine] }
  else st

/-- The distinct failures `streamCommitMessage` can return, each carrying
its diagnostic text (src/main.go:312-319, 365-367). -/
inductive StreamError where
  | transportError (e : String)
  | apiFailed (body : String)
  | scanError (e : String)
deriving Repr, DecidableEq

/-- The text of the Go `error` value: the non-OK branch wraps the body as
`fmt.Errorf("API failed: %s", body)` (src/main.go:319); the other two
return the underlying error unchanged. -/
def StreamError.render : StreamError → String
  | .transportError e => e
  | .apiFailed body => "API failed: " ++ body
  | .scanError e => e

/-- What one call of `streamCommitMessage` produces: the request it sent,
the lines it printed to the console, and the `(string, error)` pair it
returns. -/
structure StreamOutput where
  request : HttpRequest
  printed : List String
  message : String
  err : Option StreamError

/-- `streamCommitMessage` (src/main.go:289-370).  `json.Marshal` of a
`ChatRequest` cannot fail (the type has no unsupported fields), and
`http.NewRequest` with the fixed method and URL cannot fail, so the model
keeps only the transport failure, the non-OK status check, the scanner
loop, the residual flush, and the `scanner.Err()` check, in source order.
On a non-OK status the whole raw body becomes the diagnostic; on a scanner
read error the accumulated text is discarded and the returned string is
empty. -/
def streamCommitMessage (decode : String → Option StreamResponseChunk)
    (transport : TransportResult) (apiKey : String)
    (messages : List ChatMessage) (temperature : Option Float) : StreamOutput :=
  let requestBody := buildChatRequest messages temperature
  let jsonData := serializeChatRequest requestBody
  let req := buildRequest apiKey jsonData
  match transport with
  | .failure e => ⟨req, [], "", some (.transportError e)⟩
  | .success resp =>
    if resp.statusCode ≠ 200 then
      ⟨req, [], "", some (.apiFailed resp.raw)⟩
    else
      let st := resp.lines.foldl (processLine decode) ⟨"", "", []⟩
      let st := finalizeState st
      match resp.scanErr with
      | some e => ⟨req, st.printed, "", some (.scanError e)⟩
      | none => ⟨req, st.printed, st.fullMessage, none⟩

/-! ### Spec-side extraction

`lineFragments` mirrors the skip structure of `processLine` but only
collects which content fragments a data line delivers; it is the
specification's notion of "the incremental fragments received", used to
compare the assembler's output against their plain concatenation. -/

/-- All text the accumulator has received so far (the spec's
`fullMessage + currentLine`). -/
def AccState.text (st : AccState) : String :=
  st.fullMessage ++ st.currentLine

/-- The content fragments one line of the wire stream delivers: nothing
for non-data lines, the sentinel, empty payloads, or undecodable payloads;
otherwise the present `content` fields of the event's choices, in order. -/
def lineFragments (decode : String → Option StreamResponseChunk)
    (line : String) : List String :=
  if goHasPrefix line "data:" ∧ line ≠ "data: [DONE]" then
    if goTrimSpace (goDrop line 5) = "" then []
    else
      match decode (goTrimSpace (goDrop line 5)) with
      | none => []
      | some chunk => chunk.choices.filterMap (fun c => c.delta.content)
  else []

/-- All fragments a whole stream of lines delivers, in arrival order. -/
def streamFragments (decode : String → Option StreamResponseChunk)
    (lines : List String) : List String :=
  (lines.map (lineFragments decode)).flatten

/-! ### Helper lemmas -/

lemma foldl_append_init (l : List String) (x : String) :
    l.foldl (· ++ ·) x = x ++ l.foldl (· ++ ·) "" := by
  induction l generalizing x with
  | nil => simp
  | cons a l ih =>
    simp only [List.foldl_cons]
    rw [ih (x ++ a), ih ("" ++ a), String.empty_append, String.append_assoc]

lemma join_cons (a : String) (l : List String) :
    String.join (a :: l) = a ++ String.join l := by
  simp only [String.join, List.foldl_cons, String.empty_append]
  exact foldl_append_init l a

lemma join_append (l₁ l₂ : List String) :
    String.join (l₁ ++ l₂) = String.join l₁ ++ String.join l₂ := by
  induction l₁ with
  | nil => simp [String.join]
  | cons a l ih =>
    simp only [List.cons_append, join_cons, ih, String.append_assoc]

lemma processChar_text (st : AccState) (c : Char) :
    (processChar st c).text = st.text.push c := by
  unfold processChar AccState.text
  by_cases h : c = '\n'
  · simp only [if_pos h]
    apply String.ext
    simp [String.data_append, String.data_push]
  · simp only [if_neg h]
    apply String.ext
    simp [String.data_append, String.data_push]

lemma foldl_processChar_text (cs : List Char) (st : AccState) :
    (cs.foldl processChar st).text = st.text ++ String.mk cs := by
  induction cs generalizing st with
  | nil =>
    simp only [List.foldl_nil]
    apply String.ext
    simp [String.data_append]
  | cons c cs ih =>
    simp only [List.foldl_cons]
    rw [ih, processChar_text]
    apply String.ext
    simp [String.data_append, String.data_push]

lemma processContent_text (st : AccState) (s : String) :
    (processContent st s).text = st.text ++ s := by
  unfold processContent
  rw [foldl_processChar_text]
  congr 1

lemma foldl_processChoice_text (chs : List StreamChoice) (st : AccState) :
    (chs.foldl processChoice st).text
      = st.text ++ String.join (chs.filterMap (fun c => c.delta.content)) := by
  induction chs generalizing st with
  | nil =>
    simp only [List.foldl_nil, List.filterMap_nil]
    exact (String.append_empty st.text).symm
  | cons ch chs ih =>
    simp only [List.foldl_cons]
    rw [ih]
    cases h : ch.delta.content with
    | none => simp [processChoice, h]
    | some c =>
      simp only [processChoice, h]
      rw [processContent_text]
      simp [h, join_cons, String.append_assoc]

lemma processChunk_text (st : AccState) (chunk : StreamResponseChunk) :
    (processChunk st chunk).text
      = st.text ++ String.join (chunk.choices.filterMap (fun c => c.delta.content)) :=
  foldl_processChoice_text chunk.choices st

lemma processLine_text (decode : String → Option StreamResponseChunk)
    (st : AccState) (line : String) :
    (processLine decode st line).text
      = st.text ++ String.join (lineFragments decode line) := by
  unfold processLine lineFragments
  by_cases h1 : goHasPrefix line "data:" ∧ line ≠ "data: [DONE]"
  · simp only [if_pos h1]
    by_cases h2 : goTrimSpace (goDrop line 5) = ""
    · simp only [if_pos h2, String.join, List.foldl_nil]
      exact (String.append_empty st.text).symm
    · simp only [if_neg h2]
      cases hd : decode (goTrimSpace (goDrop line 5)) with
      | none =>
        simp only [String.join, List.foldl_nil]
        exact (String.append_empty st.text).symm
      | some chunk => exact processChunk_text st chunk
  · simp only [if_neg h1, String.join, List.foldl_nil]
    exact (String.append_empty st.text).symm

lemma foldl_processLine_text (decode : String → Option StreamResponseChunk)
    (lines : List String) (st : AccState) :
    (lines.foldl (processLine decode) st).text
      = st.text ++ String.join (streamFragments decode lines) := by
  induction lines generalizing st with
  | nil =>
    simp only [List.foldl_nil, streamFragments, List.map_nil, List.flatten_nil]
    simp only [String.join, List.foldl_nil]
    exact (String.append_empty st.text).symm
  | cons l ls ih =>
    simp only [List.foldl_cons]
    rw [ih, processLine_text]
    simp only [streamFragments, List.map_cons, List.flatten_cons, join_append,
      String.append_assoc]

lemma length_zero_eq_empty (s : String) (h : ¬ s.length > 0) : s = "" := by
  cases s with
  | mk d =>
    cases d with
    | nil => rfl
    | cons a l => simp [String.length] at h

lemma finalizeState_fullMessage (st : AccState) :
    (finalizeState st).fullMessage = st.text := by
  unfold finalizeState AccState.text
  by_cases h : st.currentLine.length > 0
  · simp [if_pos h]
  · simp only [if_neg h]
    rw [length_zero_eq_empty st.currentLine h]
    exact (String.append_empty st.fullMessage).symm

/-- One stream event carrying a whole string as a single fragment in a
single choice. -/
def singleFragmentEvent (s : String) : StreamResponseChunk :=
  ⟨[⟨⟨some s⟩⟩]⟩

/-- A sequence of stream events, each delivering a group of the
characters as single-character fragments (one choice per character). -/
def singletonFragmentEvents (gss : List (List Char)) : List StreamResponseChunk :=
  gss.map (fun g => ⟨g.map (fun c => ⟨⟨some (String.singleton c)⟩⟩)⟩)

lemma foldl_singleton_events (gss : List (List Char)) (st : AccState) :
    (singletonFragmentEvents gss).foldl processChunk st
      = gss.flatten.foldl processChar st := by
  induction gss generalizing st with
  | nil => rfl
  | cons g rest ih =>
    have hg : processChunk st ⟨g.map (fun c => ⟨⟨some (String.singleton c)⟩⟩)⟩
        = g.foldl processChar st := by
      unfold processChunk
      rw [List.foldl_map]
      congr 1
    have hstep : singletonFragmentEvents (g :: rest)
        = (⟨g.map (fun c => ⟨⟨some (String.singleton c)⟩⟩)⟩ : StreamResponseChunk)
            :: singletonFragmentEvents rest := rfl
    rw [hstep, List.foldl_cons, hg, ih, List.flatten_cons, List.foldl_append]

/-! ### Claim theorems -/

/-- **C1.** For every sequence of incremental content fragments delivered
to `streamCommitMessage` through valid data events, the returned final
message equals the exact concatenation of those fragments in arrival
order, with no characters lost, duplicated, or reordered; and throughout
processing (after any number of processed lines), `fullMessage +
currentLine` equals all text received so far. -/
theorem streamCommitMessage_concat_invariant
    (decode : String → Option StreamResponseChunk) (lines : List String)
    (raw apiKey : String) (messages : List ChatMessage)
    (temperature : Option Float) :
    ((streamCommitMessage decode (.success ⟨200, raw, lines, none⟩) apiKey
        messages temperature).message = String.join (streamFragments decode lines)
      ∧ (streamCommitMessage decode (.success ⟨200, raw, lines, none⟩) apiKey
        messages temperature).err = none)
    ∧ ∀ received : List String,
        (received.foldl (processLine decode) ⟨"", "", []⟩).fullMessage
          ++ (received.foldl (processLine decode) ⟨"", "", []⟩).currentLine
          = String.join (streamFragments decode received) := by
  have hrun : ∀ received : List String,
      (received.foldl (processLine decode) ⟨"", "", []⟩).text
        = String.join (streamFragments decode received) := by
    intro received
    rw [foldl_processLine_text]
    exact String.empty_append _
  constructor
  · have hmsg : (streamCommitMessage decode (.success ⟨200, raw, lines, none⟩)
        apiKey messages temperature).message
        = (finalizeState (lines.foldl (processLine decode) ⟨"", "", []⟩)).fullMessage := by
      rfl
    refine ⟨?_, rfl⟩
    rw [hmsg, finalizeState_fullMessage, hrun]
  · exact hrun

/-- **C2.** Splitting one logical line of generated text into an
arbitrary number of single-character fragments spread over an arbitrary
number of events yields the same assembler state — hence the same final
message and the same printed console lines — as delivering the whole line
as one fragment in one event. -/
theorem fragmentation_invariance (st : AccState) (s : String)
    (gss : List (List Char)) (h : gss.flatten = s.toList) :
    (singletonFragmentEvents gss).foldl processChunk st
        = processChunk st (singleFragmentEvent s)
    ∧ ((singletonFragmentEvents gss).foldl processChunk st).fullMessage
        = (processChunk st (singleFragmentEvent s)).fullMessage
    ∧ ((singletonFragmentEvents gss).foldl processChunk st).printed
        = (processChunk st (singleFragmentEvent s)).printed := by
  have he : (singletonFragmentEvents gss).foldl processChunk st
      = processChunk st (singleFragmentEvent s) := by
    rw [foldl_singleton_events, h]
    rfl
  exact ⟨he, congrArg AccState.fullMessage he, congrArg AccState.printed he⟩

/-- Witness for **C2**: the line `"ab\n"` delivered as the two events
`['a']` and `['b', '\n']` of single-character fragments behaves exactly
like one event carrying `"ab\n"` whole. -/
theorem fragmentation_invariance_witness :
    [['a'], ['b', '\n']].flatten = "ab\n".toList
    ∧ ((singletonFragmentEvents [['a'], ['b', '\n']]).foldl processChunk ⟨"", "", []⟩
          = processChunk ⟨"", "", []⟩ (singleFragmentEvent "ab\n")
        ∧ ((singletonFragmentEvents [['a'], ['b', '\n']]).foldl processChunk
            ⟨"", "", []⟩).fullMessage
          = (processChunk ⟨"", "", []⟩ (singleFragmentEvent "ab\n")).fullMessage
        ∧ ((singletonFragmentEvents [['a'], ['b', '\n']]).foldl processChunk
            ⟨"", "", []⟩).printed
          = (processChunk ⟨"", "", []⟩ (singleFragmentEvent "ab\n")).printed) :=
  ⟨by decide,
   fragmentation_invariance ⟨"", "", []⟩ "ab\n" [['a'], ['b', '\n']] (by decide)⟩

/-- **C6.** A choice whose delta `content` field is absent contributes
nothing to the accumulator or the console, and a choice whose `content`
field is present as the empty string appends zero characters; neither is
an error (the per-choice branch at src/main.go:341-353 has no error path
at all — both leave the state untouched). -/
theorem delta_content_absent_vs_empty (st : AccState) :
    processChoice st ⟨⟨none⟩⟩ = st ∧ processChoice st ⟨⟨some ""⟩⟩ = st :=
  ⟨rfl, rfl⟩

/-- **C7.** When the line source reports a read failure
(`scanner.Err() != nil`, src/main.go:365-367), `streamCommitMessage`
returns that failure and an empty message string, regardless of how much
text was accumulated before the failure. -/
theorem scan_error_aborts (decode : String → Option StreamResponseChunk)
    (raw e apiKey : String) (lines : List String)
    (messages : List ChatMessage) (temperature : Option Float) :
    (streamCommitMessage decode (.success ⟨200, raw, lines, some e⟩) apiKey
        messages temperature).message = ""
    ∧ (streamCommitMessage decode (.success ⟨200, raw, lines, some e⟩) apiKey
        messages temperature).err = some (.scanError e) :=
  ⟨rfl, rfl⟩

/-- **C4.** For every response whose status is not success (200),
`streamCommitMessage` fails with a diagnostic carrying the literal
response body (src/main.go:317-320), prints nothing, and returns no
partial final message. -/
theorem non_success_status_fails_with_body
    (decode : String → Option StreamResponseChunk) (status : Nat)
    (raw : String) (lines : List String) (scanErr : Option String)
    (apiKey : String) (messages : List ChatMessage) (temperature : Option Float)
    (h : status ≠ 200) :
    (streamCommitMessage decode (.success ⟨status, raw, lines, scanErr⟩) apiKey
        messages temperature).message = ""
    ∧ (streamCommitMessage decode (.success ⟨status, raw, lines, scanErr⟩) apiKey
        messages temperature).err = some (.apiFailed raw)
    ∧ (streamCommitMessage decode (.success ⟨status, raw, lines, scanErr⟩) apiKey
        messages temperature).printed = [] := by
  refine ⟨?_, ?_, ?_⟩ <;> simp [streamCommitMessage, h]

/-- Witness for **C4**: a 500 response with body `"oops"` yields the
failure carrying `"oops"`, an empty message, and no printed lines. -/
theorem non_success_status_fails_with_body_witness :
    (500 : Nat) ≠ 200
    ∧ ((streamCommitMessage (fun _ => none) (.success ⟨500, "oops", [], none⟩)
          "k" [] none).message = ""
        ∧ (streamCommitMessage (fun _ => none) (.success ⟨500, "oops", [], none⟩)
          "k" [] none).err = some (.apiFailed "oops")
        ∧ (streamCommitMessage (fun _ => none) (.success ⟨500, "oops", [], none⟩)
          "k" [] none).printed = []) :=
  ⟨by decide,
   non_success_status_fails_with_body (fun _ => none) 500 "oops" [] none "k" []
     none (by decide)⟩

lemma streamCommitMessage_request (decode : String → Option StreamResponseChunk)
    (transport : TransportResult) (apiKey : String)
    (messages : List ChatMessage) (temperature : Option Float) :
    (streamCommitMessage decode transport apiKey messages temperature).request
      = buildRequest apiKey (serializeChatRequest (buildChatRequest messages temperature)) := by
  cases transport with
  | failure e => rfl
  | success resp =>
    obtain ⟨status, raw, lines, scanErr⟩ := resp
    by_cases h : status ≠ 200
    · simp [streamCommitMessage, h]
    · cases scanErr <;> simp [streamCommitMessage, h]

/-- **C10.** When the optional temperature is absent (a nil pointer), the
serialized request body contains no `temperature` field at all; when it is
present, the serialized body carries exactly the configured value
(`temperature,omitempty` on a pointer, src/main.go:44, serialized at
src/main.go:297). -/
theorem temperature_serialization
    (decode : String → Option StreamResponseChunk) (transport : TransportResult)
    (apiKey : String) (messages : List ChatMessage) :
    ((streamCommitMessage decode transport apiKey messages none).request.body.filter
        (fun f => f.key == "temperature")) = []
    ∧ ∀ t : Float,
        ((streamCommitMessage decode transport apiKey messages
            (some t)).request.body.filter (fun f => f.key == "temperature"))
          = [JsonField.num "temperature" t] := by
  constructor
  · rw [streamCommitMessage_request]
    rfl
  · intro t
    rw [streamCommitMessage_request]
    rfl

/-- The malformed data line of the spec's fault-isolation example. -/
def badEventLine : String := "data: \x7bbad json\x7d"

/-- The payload of the valid data line of the fault-isolation example,
exactly as it stands on the wire after the marker is stripped and the
remainder trimmed. -/
def hiPayload : String :=
  "\x7b\"choices\":[\x7b\"delta\":\x7b\"content\":\"hi\\n\"\x7d\x7d]\x7d"

/-- The valid data line of the fault-isolation example. -/
def hiEventLine : String := "data: " ++ hiPayload

/-- What Go's `json.Unmarshal` produces from `hiPayload`: one choice whose
delta content is the two characters `hi` followed by a newline. -/
def hiChunk : StreamResponseChunk := ⟨[⟨⟨some "hi\n"⟩⟩]⟩

lemma processLine_done (decode : String → Option StreamResponseChunk)
    (st : AccState) : processLine decode st "data: [DONE]" = st := by
  unfold processLine
  rw [if_neg (by decide :
    ¬(goHasPrefix "data: [DONE]" "data:" = true
       ∧ "data: [DONE]" ≠ "data: [DONE]"))]

/-- **C3.** A data line whose payload fails to decode is silently skipped
— not fatal, not reported — and has no effect on extraction from
subsequent valid lines: the stream `["data: {bad json}", "data:
{\"choices\":[{\"delta\":{\"content\":\"hi\\n\"}}]}", "data: [DONE]"]`
yields the final message `"hi\n"` and no error.  The two decoding
hypotheses state what `json.Unmarshal` (external library code) does on the
two payloads: the first is malformed, the second decodes to one choice
carrying `"hi\n"`. -/
theorem malformed_event_skipped (decode : String → Option StreamResponseChunk)
    (raw apiKey : String) (messages : List ChatMessage)
    (temperature : Option Float)
    (hbad : decode "\x7bbad json\x7d" = none)
    (hgood : decode hiPayload = some hiChunk) :
    (streamCommitMessage decode
        (.success ⟨200, raw, [badEventLine, hiEventLine, "data: [DONE]"], none⟩)
        apiKey messages temperature).message = "hi\n"
    ∧ (streamCommitMessage decode
        (.success ⟨200, raw, [badEventLine, hiEventLine, "data: [DONE]"], none⟩)
        apiKey messages temperature).err = none := by
  have h1 : processLine decode ⟨"", "", []⟩ badEventLine = ⟨"", "", []⟩ := by
    unfold processLine
    rw [if_pos (by decide :
        goHasPrefix badEventLine "data:" = true
          ∧ badEventLine ≠ "data: [DONE]")]
    rw [if_neg (by decide : ¬(goTrimSpace (goDrop badEventLine 5) = ""))]
    rw [show goTrimSpace (goDrop badEventLine 5) = "\x7bbad json\x7d" from by decide]
    rw [hbad]
  have h2 : processLine decode ⟨"", "", []⟩ hiEventLine
      = ⟨"hi\n", "", ["| hi"]⟩ := by
    unfold processLine
    rw [if_pos (by decide :
        goHasPrefix hiEventLine "data:" = true
          ∧ hiEventLine ≠ "data: [DONE]")]
    rw [if_neg (by decide : ¬(goTrimSpace (goDrop hiEventLine 5) = ""))]
    rw [show goTrimSpace (goDrop hiEventLine 5) = hiPayload from by decide]
    rw [hgood]
    decide
  have hfold : [badEventLine, hiEventLine, "data: [DONE]"].foldl
      (processLine decode) ⟨"", "", []⟩ = ⟨"hi\n", "", ["| hi"]⟩ := by
    simp only [List.foldl_cons, List.foldl_nil, h1, h2, processLine_done]
  constructor
  · show (finalizeState ([badEventLine, hiEventLine, "data: [DONE]"].foldl
        (processLine decode) ⟨"", "", []⟩)).fullMessage = "hi\n"
    rw [hfold]
    decide
  · rfl

/-- Witness for **C3**: a concrete decoder that behaves like
`json.Unmarshal` on the two payloads of the example. -/
def exampleDecode : String → Option StreamResponseChunk :=
  fun s => if s = hiPayload then some hiChunk else none

/-- Witness theorem for **C3**, at the decoder `exampleDecode`. -/
theorem malformed_event_skipped_witness :
    (exampleDecode "\x7bbad json\x7d" = none ∧ exampleDecode hiPayload = some hiChunk)
    ∧ ((streamCommitMessage exampleDecode
          (.success ⟨200, "", [badEventLine, hiEventLine, "data: [DONE]"], none⟩)
          "k" [] none).message = "hi\n"
        ∧ (streamCommitMessage exampleDecode
          (.success ⟨200, "", [badEventLine, hiEventLine, "data: [DONE]"], none⟩)
          "k" [] none).err = none) :=
  ⟨⟨by decide, by decide⟩,
   malformed_event_skipped exampleDecode "" "k" [] none (by decide) (by decide)⟩

/-- The payload of the residual-flush example, exactly as it stands after
the marker is stripped and the remainder trimmed. -/
def residualPayload : String :=
  "\x7b\"choices\":[\x7b\"delta\":\x7b\"content\":\"partial\"\x7d\x7d]\x7d"

/-- The data line of the residual-flush example. -/
def residualEventLine : String := "data: " ++ residualPayload

/-- What Go's `json.Unmarshal` produces from `residualPayload`: one choice
whose delta content is `"partial"`, with no trailing newline. -/
def residualChunk : StreamResponseChunk := ⟨[⟨⟨some "partial"⟩⟩]⟩

/-- **C5.** When the stream ends while `currentLine` holds residual text,
that residual is printed exactly once, trimmed of surrounding whitespace
for display only, and appended verbatim (untrimmed) to the returned
message exactly once (src/main.go:358-363); in particular the stream
`["data: {\"choices\":[{\"delta\":{\"content\":\"partial\"}}]}",
"data: [DONE]"]` returns `"partial"` and prints the single line
`"| partial"`.  The decoding hypothesis states what `json.Unmarshal`
does on the example payload. -/
theorem residual_flush (st : AccState) (hres : st.currentLine ≠ "")
    (decode : String → Option StreamResponseChunk) (raw apiKey : String)
    (messages : List ChatMessage) (temperature : Option Float)
    (hdec : decode residualPayload = some residualChunk) :
    finalizeState st
        = { st with
            fullMessage := st.fullMessage ++ st.currentLine
            printed := st.printed ++ ["| " ++ goTrimSpace st.currentLine] }
    ∧ (streamCommitMessage decode
        (.success ⟨200, raw, [residualEventLine, "data: [DONE]"], none⟩)
        apiKey messages temperature).message = "partial"
    ∧ (streamCommitMessage decode
        (.success ⟨200, raw, [residualEventLine, "data: [DONE]"], none⟩)
        apiKey messages temperature).printed = ["| partial"] := by
  have h1 : processLine decode ⟨"", "", []⟩ residualEventLine
      = ⟨"", "partial", []⟩ := by
    unfold processLine
    rw [if_pos (by decide :
        goHasPrefix residualEventLine "data:" = true
          ∧ residualEventLine ≠ "data: [DONE]")]
    rw [if_neg (by decide : ¬(goTrimSpace (goDrop residualEventLine 5) = ""))]
    rw [show goTrimSpace (goDrop residualEventLine 5) = residualPayload from by decide]
    rw [hdec]
    decide
  have hfold : [residualEventLine, "data: [DONE]"].foldl
      (processLine decode) ⟨"", "", []⟩ = ⟨"", "partial", []⟩ := by
    simp only [List.foldl_cons, List.foldl_nil, h1, processLine_done]
  refine ⟨?_, ?_, ?_⟩
  · have hlen : st.currentLine.length > 0 := by
      by_contra hn
      exact hres (length_zero_eq_empty st.currentLine hn)
    unfold finalizeState
    rw [if_pos hlen]
  · show (finalizeState ([residualEventLine, "data: [DONE]"].foldl
        (processLine decode) ⟨"", "", []⟩)).fullMessage = "partial"
    rw [hfold]
    decide
  · show (finalizeState ([residualEventLine, "data: [DONE]"].foldl
        (processLine decode) ⟨"", "", []⟩)).printed = ["| partial"]
    rw [hfold]
    decide

/-- Witness for **C5**: a concrete decoder behaving like `json.Unmarshal`
on the example payload, and a concrete residual state. -/
def residualDecode : String → Option StreamResponseChunk :=
  fun s => if s = residualPayload then some residualChunk else none

/-- Witness theorem for **C5**, at the residual state `⟨"a\n", " b ", []⟩`
and the decoder `residualDecode`. -/
theorem residual_flush_witness :
    ((⟨"a\n", " b ", []⟩ : AccState).currentLine ≠ ""
      ∧ residualDecode residualPayload = some residualChunk)
    ∧ (finalizeState ⟨"a\n", " b ", []⟩
          = { (⟨"a\n", " b ", []⟩ : AccState) with
              fullMessage := "a\n" ++ " b "
              printed := [] ++ ["| " ++ goTrimSpace " b "] }
        ∧ (streamCommitMessage residualDecode
            (.success ⟨200, "", [residualEventLine, "data: [DONE]"], none⟩)
            "k" [] none).message = "partial"
        ∧ (streamCommitMessage residualDecode
            (.success ⟨200, "", [residualEventLine, "data: [DONE]"], none⟩)
            "k" [] none).printed = ["| partial"]) :=
  ⟨⟨by decide, by decide⟩,
   residual_flush ⟨"a\n", " b ", []⟩ (by decide) residualDecode "" "k" [] none
     (by decide)⟩

/-! ### The `runCommit` glue (src/main.go:85-125) -/

/-- `DeepSeekConfig` (src/main.go:27-31): pointer fields are `Option`s. -/
structure DeepSeekConfig where
  apiKey : String
  temperature : Option Float
  prompt : Option String

/-- `Config` (src/main.go:23-25). -/
structure Config where
  deepseek : DeepSeekConfig

/-- The default prompt constant of `buildPromptMessages`
(src/main.go:232-248), a raw string starting and ending with a newline. -/
def defaultPrompt : String :=
  "\nYou are an AI commit message assistant.\n\nPlease generate a commit message with the following format:\n1. Title (one short sentence, 50-72 characters max).\n2. A clear bullet-point list of changes (start each line with \"- \").\n3. Each line, including bullets, should be under 100 characters.\n4. Keep it concise, consistent, and professional.\n\nExample:\n\nImprove error handling in user authentication\n\n- Add detailed error messages for login failures\n- Handle timeout errors gracefully\n- Refactor error propagation logic for clarity\n"

/-- `buildPromptMessages` (src/main.go:231-264): the custom prompt is used
only when present and non-empty; the user message prefixes the diff with a
fixed label. -/
def buildPromptMessages (changes : String) (promptOpt : Option String) :
    List ChatMessage :=
  let prompt :=
    match promptOpt with
    | some p => if p = "" then defaultPrompt else p
    | none => defaultPrompt
  [⟨"system", prompt⟩,
   ⟨"user", "Here are my current Git changes:\n" ++ changes⟩]

/-- The external collaborators `runCommit` composes: the configuration
provider (src/main.go:87), the staged-change extractor (src/main.go:97),
the stream decoder and transport consumed by `streamCommitMessage`, and
the go-git commit writer `createCommit` (src/main.go:372-406), which
returns a commit id or fails. -/
structure RunEnv where
  configResult : Except String Config
  stagedChanges : Except String String
  decode : String → Option StreamResponseChunk
  transport : TransportResult
  createCommit : String → Except String String

/-- What one `runCommit` invocation does: `commits` lists the messages
passed to `createCommit`, in order (empty when no commit was attempted),
and `err` is the returned error, `none` on success. -/
structure RunOutput where
  commits : List String
  err : Option String
deriving Repr, DecidableEq

/-- Lines 109-124 of src/main.go, after the stream call: a stream failure
is wrapped and returned; otherwise, only when the apply flag is set, the
trimmed message is handed to `createCommit` (src/main.go:115-116). -/
def commitPhase (applyFlag : Bool) (env : RunEnv) (out : StreamOutput) :
    RunOutput :=
  match out.err with
  | some e => ⟨[], some ("failed to generate commit message: " ++ e.render)⟩
  | none =>
    if applyFlag then
      match env.createCommit (goTrimSpace out.message) with
      | .error e =>
        ⟨[goTrimSpace out.message], some ("failed to create commit: " ++ e)⟩
      | .ok _ => ⟨[goTrimSpace out.message], none⟩
    else ⟨[], none⟩

/-- `runCommit` (src/main.go:85-125): load config, require an API key, get
the staged changes, build the prompt, stream the message, then optionally
commit.  Banner printing is console-only and not modelled. -/
def runCommit (applyFlag : Bool) (env : RunEnv) : RunOutput :=
  match env.configResult with
  | .error e => ⟨[], some ("failed to load config: " ++ e)⟩
  | .ok config =>
    if config.deepseek.apiKey = "" then
      ⟨[], some "error: No DeepSeek API key found. Please set your API key in the config file"⟩
    else
      match env.stagedChanges with
      | .error e => ⟨[], some ("failed to get staged changes: " ++ e)⟩
      | .ok changes =>
        commitPhase applyFlag env
          (streamCommitMessage env.decode env.transport config.deepseek.apiKey
            (buildPromptMessages changes config.deepseek.prompt)
            config.deepseek.temperature)

/-- **C8.** When the apply flag is set and streaming succeeds, the message
handed to the commit operation is the returned full message with leading
and trailing whitespace stripped (`strings.TrimSpace(fullMessage)`,
src/main.go:116), not the verbatim returned message. -/
theorem apply_commits_trimmed_message (env : RunEnv) (config : Config)
    (changes : String)
    (hc : env.configResult = .ok config)
    (hk : ¬config.deepseek.apiKey = "")
    (hs : env.stagedChanges = .ok changes)
    (hstream : (streamCommitMessage env.decode env.transport
        config.deepseek.apiKey (buildPromptMessages changes config.deepseek.prompt)
        config.deepseek.temperature).err = none) :
    (runCommit true env).commits
      = [goTrimSpace (streamCommitMessage env.decode env.transport
          config.deepseek.apiKey (buildPromptMessages changes config.deepseek.prompt)
          config.deepseek.temperature).message] := by
  simp only [runCommit, hc, if_neg hk, hs, commitPhase, hstream]
  cases hcc : env.createCommit (goTrimSpace (streamCommitMessage env.decode
      env.transport config.deepseek.apiKey
      (buildPromptMessages changes config.deepseek.prompt)
      config.deepseek.temperature).message) <;> simp [hcc]

/-- **C9.** When the apply flag is false and message generation succeeds,
no commit is created: `runCommit` returns success without invoking the
commit operation (src/main.go:114-124). -/
theorem no_apply_no_commit (env : RunEnv) (config : Config) (changes : String)
    (hc : env.configResult = .ok config)
    (hk : ¬config.deepseek.apiKey = "")
    (hs : env.stagedChanges = .ok changes)
    (hstream : (streamCommitMessage env.decode env.transport
        config.deepseek.apiKey (buildPromptMessages changes config.deepseek.prompt)
        config.deepseek.temperature).err = none) :
    (runCommit false env).commits = [] ∧ (runCommit false env).err = none := by
  simp only [runCommit, hc, if_neg hk, hs, commitPhase, hstream]
  exact ⟨by simp, by simp⟩

/-- A fully successful environment: a valid key, a diff, an empty stream,
and a commit writer that succeeds. -/
def happyEnv : RunEnv :=
  { configResult := .ok ⟨⟨"key", none, none⟩⟩
    stagedChanges := .ok "diff"
    decode := fun _ => none
    transport := .success ⟨200, "", [], none⟩
    createCommit := fun _ => .ok "deadbeef" }

/-- Witness theorem for **C8** in the environment `happyEnv`. -/
theorem apply_commits_trimmed_message_witness :
    (happyEnv.configResult = .ok ⟨⟨"key", none, none⟩⟩
      ∧ ¬("key" : String) = ""
      ∧ happyEnv.stagedChanges = .ok "diff"
      ∧ (streamCommitMessage happyEnv.decode happyEnv.transport "key"
          (buildPromptMessages "diff" none) none).err = none)
    ∧ (runCommit true happyEnv).commits
        = [goTrimSpace (streamCommitMessage happyEnv.decode happyEnv.transport
            "key" (buildPromptMessages "diff" none) none).message] :=
  ⟨⟨rfl, by decide, rfl, rfl⟩,
   apply_commits_trimmed_message happyEnv ⟨⟨"key", none, none⟩⟩ "diff" rfl
     (by decide) rfl rfl⟩

/-- Witness theorem for **C9** in the environment `happyEnv`. -/
theorem no_apply_no_commit_witness :
    (happyEnv.configResult = .ok ⟨⟨"key", none, none⟩⟩
      ∧ ¬("key" : String) = ""
      ∧ happyEnv.stagedChanges = .ok "diff"
      ∧ (streamCommitMessage happyEnv.decode happyEnv.transport "key"
          (buildPromptMessages "diff" none) none).err = none)
    ∧ ((runCommit false happyEnv).commits = []
        ∧ (runCommit false happyEnv).err = none) :=
  ⟨⟨rfl, by decide, rfl, rfl⟩,
   no_apply_no_commit happyEnv ⟨⟨"key", none, none⟩⟩ "diff" rfl (by decide)
     rfl rfl⟩

end GitAicommit
